import Mathlib

/-!
Verification development for the bridge-club management program
(`src/clubappv01.py`).  The four relational tables created by `init_db`
are embedded as Lean lists, and the operations the specification talks
about (settings read/write, custom-field definition and domain lookup,
member-attribute upsert and cascade delete, the tab6 filter pipeline and
the tab8 spreadsheet import loop) are translated function by function.
SQL `TEXT` columns written by the UI are modelled as `String` (Streamlit
text inputs yield empty strings for blank entries); nullable integer
columns are `Option Int`; `SERIAL` keys are modelled with an explicit
next-id counter per table.
-/

/-- A row of the `people` table (`init_db`, clubappv01.py lines 41-64). -/
structure Person where
  id : Nat
  last_name : String
  first_name : String
  phone : String
  email : String
  is_member : String
  member_month : String
  member_year : Option Int
  subscription_year : Option Int
  is_athlete : String
  eom_number : String
  athlete_from_year : Option Int
  is_student : String
  student_period_month : String
  student_period_year : Option Int
  student_university : String
  is_interested : String
  interested_from_month : String
  interested_from_year : Option Int
deriving DecidableEq

/-- A row of the `custom_fields` table (lines 72-80).
`applicable_domains` is the delimited string produced by
`add_custom_field`. -/
structure CustomField where
  id : Nat
  field_name : String
  display_name : String
  applicable_domains : String
deriving DecidableEq

/-- A row of the `member_attributes` table (lines 81-89).
`field_value` is nullable: `display_editable_all` can write SQL NULL
through `save_member_attribute`. -/
structure MARow where
  id : Nat
  member_id : Nat
  field_id : Nat
  field_value : Option String
deriving DecidableEq

/-- The database state: the four tables plus the next `SERIAL` value of
each surrogate key.  The `settings` table only ever has its `club_name`
column read or written, so a row is modelled by that column. -/
structure DB where
  people : List Person
  peopleNextId : Nat
  settings : List String
  custom_fields : List CustomField
  fieldsNextId : Nat
  member_attributes : List MARow
  maNextId : Nat
deriving DecidableEq

/-- A freshly initialised database: `init_db` creates the four tables
empty, and PostgreSQL `SERIAL` starts at 1. -/
def emptyDB : DB := ⟨[], 1, [], [], 1, [], 1⟩

/-- `get_club_name` (lines 94-96): `SELECT club_name FROM settings
LIMIT 1`, returning the first row's name if any row exists. -/
def get_club_name (db : DB) : Option String :=
  db.settings.head?

/-- `set_club_name` (lines 98-100): `DELETE FROM settings` followed by
`INSERT INTO settings (club_name) VALUES (name)`. -/
def set_club_name (db : DB) (name : String) : DB :=
  let db1 := { db with settings := [] }
  { db1 with settings := db1.settings ++ [name] }

/-- Boolean substring containment: `strContains hay pat` holds when
`pat` occurs contiguously inside `hay`.  This embeds the pandas
`Series.str.contains` checks of the program; every pattern the program
passes (the five Greek domain tags, and stripped search strings) is a
plain string, so the pandas default regex engine degenerates to
substring search. -/
def strContains (hay pat : String) : Bool :=
  decide (pat.data <:+: hay.data)

/-- Python `str.lower()` as used by the program, modelled as per-character
ASCII case folding over the string's characters.  (Lean's own
`String.toLower` is definitionally opaque to the kernel; this data-level
version evaluates.) -/
def pyLower (s : String) : String :=
  ⟨s.data.map Char.toLower⟩

/-- Python `str.strip()`: drop leading and trailing whitespace. -/
def pyStrip (s : String) : String :=
  ⟨((s.data.dropWhile Char.isWhitespace).reverse.dropWhile
      Char.isWhitespace).reverse⟩

/-- The `",".join(applicable_domains)` encoding used by
`add_custom_field` (line 134). -/
def joinDomains : List String → String
  | [] => ""
  | [x] => x
  | x :: y :: xs => x ++ "," ++ joinDomains (y :: xs)

/-- `get_custom_fields` (lines 114-115): `SELECT * FROM custom_fields
ORDER BY id`.  Rows are appended with strictly increasing ids, so the
table list is already in id order. -/
def get_custom_fields (db : DB) : List CustomField :=
  db.custom_fields

/-- `add_custom_field` (lines 133-136).  The stored `applicable_domains`
string is `"Όλα"` when the domain list is empty, else the comma-joined
tags.  The `field_name UNIQUE` constraint of the table makes the INSERT
fail when the name already exists, modelled as `Except.error`. -/
def add_custom_field (db : DB) (field_name display_name : String)
    (applicable_domains : List String) : Except String DB :=
  if db.custom_fields.any (fun f => decide (f.field_name = field_name)) then
    Except.error "duplicate field_name"
  else
    Except.ok { db with
      custom_fields := db.custom_fields ++
        [⟨db.fieldsNextId, field_name, display_name,
          if applicable_domains.isEmpty then "Όλα"
          else joinDomains applicable_domains⟩],
      fieldsNextId := db.fieldsNextId + 1 }

/-- `delete_custom_field` (lines 138-140): first `DELETE FROM
member_attributes WHERE field_id=%s`, then `DELETE FROM custom_fields
WHERE id=%s`, in that order. -/
def delete_custom_field (db : DB) (field_id : Nat) : DB :=
  let db1 := { db with
    member_attributes :=
      db.member_attributes.filter (fun r => decide (r.field_id ≠ field_id)) }
  { db1 with
    custom_fields := db1.custom_fields.filter (fun f => decide (f.id ≠ field_id)) }

/-- `get_custom_fields_by_domain` (lines 142-151): the early return on
an empty table, then the pandas mask `applicable_domains == "Όλα" OR
applicable_domains.str.contains(domain)`. -/
def get_custom_fields_by_domain (db : DB) (domain : String) : List CustomField :=
  let all_custom := get_custom_fields db
  if all_custom.isEmpty then all_custom
  else
    all_custom.filter (fun f =>
      decide (f.applicable_domains = "Όλα") || strContains f.applicable_domains domain)

/-- A row of the result of `get_member_attributes` (lines 117-124):
`SELECT cf.id, cf.field_name, cf.display_name, ma.field_value`. -/
structure AttrRow where
  fieldId : Nat
  fieldName : String
  displayName : String
  fieldValue : Option String
deriving DecidableEq

/-- `get_member_attributes` (lines 117-124): inner join of
`member_attributes` with `custom_fields` on `ma.field_id = cf.id`,
restricted to `ma.member_id = member_id`. -/
def get_member_attributes (db : DB) (member_id : Nat) : List AttrRow :=
  (db.member_attributes.filter (fun r => decide (r.member_id = member_id))).flatMap
    (fun r =>
      (db.custom_fields.filter (fun cf => decide (cf.id = r.field_id))).map
        (fun cf => ⟨cf.id, cf.field_name, cf.display_name, r.field_value⟩))

/-- `save_member_attribute` (lines 126-131): SELECT the rows for the
`(member_id, field_id)` pair; INSERT a fresh row if none exists, else
UPDATE the value of every row of the pair. -/
def save_member_attribute (db : DB) (member_id field_id : Nat)
    (field_value : Option String) : DB :=
  let existing := db.member_attributes.filter
    (fun r => decide (r.member_id = member_id) && decide (r.field_id = field_id))
  if existing.isEmpty then
    { db with
      member_attributes :=
        db.member_attributes ++ [⟨db.maNextId, member_id, field_id, field_value⟩],
      maNextId := db.maNextId + 1 }
  else
    { db with
      member_attributes := db.member_attributes.map (fun r =>
        if r.member_id = member_id ∧ r.field_id = field_id then
          { r with field_value := field_value }
        else r) }

/-- The rows of `member_attributes` for one `(member_id, field_id)`
pair: the SELECT of line 127. -/
def pairRows (db : DB) (member_id field_id : Nat) : List MARow :=
  db.member_attributes.filter
    (fun r => decide (r.member_id = member_id) && decide (r.field_id = field_id))

/-- No two rows of `member_attributes` share a `(member_id, field_id)`
pair: the uniqueness invariant of §3 of the specification. -/
def PairUnique (db : DB) : Prop :=
  db.member_attributes.Pairwise
    (fun a b => ¬(a.member_id = b.member_id ∧ a.field_id = b.field_id))

/-- The five domain tags the UI offers when defining a custom field
(tab9, lines 670-674); the same five constants are the only domains the
program ever queries with (tab1, lines 208, 225, 238, 255, 271). -/
def validDomainTags : List String :=
  ["ΓΕΝΙΚΑ ΣΤΟΙΧΕΙΑ", "ΜΕΛΟΣ", "ΑΘΛΗΤΗΣ", "ΜΑΘΗΤΗΣ", "ΕΝΔΙΑΦΕΡΟΜΕΝΟΣ"]

/-- The filter state of tab6 (lines 423-439): four single-choice role
clauses, seven multi-choice clauses and three free-text clauses. -/
structure FilterSpec where
  is_member : String
  is_athlete : String
  is_student : String
  is_interested : String
  member_month : List String
  member_year : List Int
  subscription_year : List Int
  athlete_from_year : List Int
  student_period_month : List String
  student_period_year : List Int
  student_university : List String
  eom_number_search : String
  name_search : String
  email_search : String
deriving DecidableEq

/-- One pipeline step of the tab6 filter code: a guarded dataframe
filter, `if active: filtered_df = filtered_df[mask]`. -/
def stepIf (active : Bool) (p : Person → Bool) (df : List Person) : List Person :=
  if active then df.filter p else df

/-- The single-choice mask `filtered_df[col] == f[col]` (line 499). -/
def colEq (sel : String) (get : Person → String) : Person → Bool :=
  fun r => decide (get r = sel)

/-- pandas `Series.isin` (line 510) over a nullable integer column: a
NULL cell is never a member of the allowed set. -/
def optIn (allowed : List Int) (get : Person → Option Int) : Person → Bool :=
  fun r =>
    match get r with
    | some v => decide (v ∈ allowed)
    | none => false

/-- pandas `Series.isin` (line 510) over a text column. -/
def strIn (allowed : List String) (get : Person → String) : Person → Bool :=
  fun r => decide (get r ∈ allowed)

/-- The name-search mask (lines 513-518): case-insensitive substring on
first name OR last name, after stripping the query. -/
def namePred (q : String) : Person → Bool :=
  fun r =>
    strContains (pyLower r.first_name) (pyLower (pyStrip q)) ||
    strContains (pyLower r.last_name) (pyLower (pyStrip q))

/-- The ΑΜ ΕΟΜ search mask (lines 520-522): case-sensitive substring of
the stripped query. -/
def eomPred (q : String) : Person → Bool :=
  fun r => strContains r.eom_number (pyStrip q)

/-- The email search mask (lines 524-526): case-sensitive substring of
the stripped query. -/
def emailPred (q : String) : Person → Bool :=
  fun r => strContains r.email (pyStrip q)

/-- The fourteen guarded clauses of the tab6 filter code (lines
493-526) in source order.  A clause is active when its selector is not
"Όλα" (single choice), its list is non-empty (multi choice, Python list
truthiness) or its query string is non-empty (free text, Python string
truthiness). -/
def specClauses (f : FilterSpec) : List (Bool × (Person → Bool)) :=
  [(decide (f.is_member ≠ "Όλα"), colEq f.is_member (fun r => r.is_member)),
   (decide (f.is_athlete ≠ "Όλα"), colEq f.is_athlete (fun r => r.is_athlete)),
   (decide (f.is_student ≠ "Όλα"), colEq f.is_student (fun r => r.is_student)),
   (decide (f.is_interested ≠ "Όλα"), colEq f.is_interested (fun r => r.is_interested)),
   (decide (f.member_month ≠ []), strIn f.member_month (fun r => r.member_month)),
   (decide (f.member_year ≠ []), optIn f.member_year (fun r => r.member_year)),
   (decide (f.subscription_year ≠ []), optIn f.subscription_year (fun r => r.subscription_year)),
   (decide (f.athlete_from_year ≠ []), optIn f.athlete_from_year (fun r => r.athlete_from_year)),
   (decide (f.student_period_month ≠ []), strIn f.student_period_month (fun r => r.student_period_month)),
   (decide (f.student_period_year ≠ []), optIn f.student_period_year (fun r => r.student_period_year)),
   (decide (f.student_university ≠ []), strIn f.student_university (fun r => r.student_university)),
   (decide (f.name_search ≠ ""), namePred f.name_search),
   (decide (f.eom_number_search ≠ ""), eomPred f.eom_number_search),
   (decide (f.email_search ≠ ""), emailPred f.email_search)]

/-- Sequential application of guarded filter steps, exactly as the tab6
code reassigns `filtered_df` line by line. -/
def clausesFold (cs : List (Bool × (Person → Bool))) (df : List Person) : List Person :=
  match cs with
  | [] => df
  | c :: rest => clausesFold rest (stepIf c.1 c.2 df)

/-- The tab6 filter application (lines 493-526) over the `people`
snapshot `df_all`. -/
def applyFilters (f : FilterSpec) (df_all : List Person) : List Person :=
  clausesFold (specClauses f) df_all

/-- A guarded clause as a total row predicate: an inactive clause
constrains nothing. -/
def clausePred (c : Bool × (Person → Bool)) : Person → Bool :=
  fun r => !c.1 || c.2 r

/-- The fourteen clauses of a filter specification as total row
predicates. -/
def clauseList (f : FilterSpec) : List (Person → Bool) :=
  (specClauses f).map clausePred

/-- Plain sequential filtering by a list of row predicates. -/
def applyClauses (cs : List (Person → Bool)) (df : List Person) : List Person :=
  match cs with
  | [] => df
  | c :: rest => applyClauses rest (df.filter c)

/-- The outcome of reading one mapped custom-field cell of an import
row: either the stringified cell value (`str(row[col])`, line 640) or a
raised error caught by the `except` of lines 643-644. -/
inductive Cell where
  | val : String → Cell
  | err : String → Cell
deriving DecidableEq

/-- One external spreadsheet row after projection through the
operator's column mapping (tab8): the seven base fields, and for each
mapped custom field the outcome of reading its cell. -/
structure ImportRow where
  first_name : String
  last_name : String
  phone : String
  email : String
  is_member : String
  is_athlete : String
  eom_number : String
  cells : List (Nat × Cell)
deriving DecidableEq

/-- The counters of the tab8 import loop plus the number of per-field
warnings emitted by `st.warning` (line 644). -/
structure ImportCounts where
  inserted : Nat
  skipped : Nat
  warnings : Nat
deriving DecidableEq

/-- The duplicate test of lines 611-613: case-insensitive equality of
(first name, last name, email) against some row of the pre-import
snapshot. -/
def isDupRow (snapshot : List Person) (r : ImportRow) : Bool :=
  snapshot.any (fun p =>
    decide (pyLower p.first_name = pyLower r.first_name) &&
    decide (pyLower p.last_name = pyLower r.last_name) &&
    decide (pyLower p.email = pyLower r.email))

/-- The `INSERT INTO people` of lines 617-628: only the seven mapped
base columns are set. -/
def personFromImport (pid : Nat) (r : ImportRow) : Person :=
  { id := pid, last_name := r.last_name, first_name := r.first_name,
    phone := r.phone, email := r.email, is_member := r.is_member,
    member_month := "", member_year := none, subscription_year := none,
    is_athlete := r.is_athlete, eom_number := r.eom_number,
    athlete_from_year := none, is_student := "", student_period_month := "",
    student_period_year := none, student_university := "",
    is_interested := "", interested_from_month := "",
    interested_from_year := none }

/-- One mapped custom-field cell of one import row (lines 638-644): a
raised error yields one warning and no write; a value is written through
`save_member_attribute` unless empty or the pandas "nan" marker. -/
def importCell (db : DB) (member_id field_id : Nat) (c : Cell) : DB × Nat :=
  match c with
  | Cell.err _ => (db, 1)
  | Cell.val s =>
    if decide (s ≠ "") && decide (pyLower s ≠ "nan") then
      (save_member_attribute db member_id field_id (some s), 0)
    else (db, 0)

/-- One iteration of the tab8 import loop (lines 607-646): skip a
duplicate, else insert the person, re-query its id and write the mapped
custom-field cells. -/
def importOneRow (snapshot : List Person) (acc : DB × ImportCounts)
    (r : ImportRow) : DB × ImportCounts :=
  let db := acc.1
  let cnt := acc.2
  if isDupRow snapshot r then
    (db, { cnt with skipped := cnt.skipped + 1 })
  else
    let p := personFromImport db.peopleNextId r
    let db1 := { db with
      people := db.people ++ [p],
      peopleNextId := db.peopleNextId + 1 }
    match (db1.people.filter (fun q =>
        decide (q.email = r.email) && decide (q.first_name = r.first_name) &&
        decide (q.last_name = r.last_name))).head? with
    | none => (db1, cnt)
    | some q =>
      let step := r.cells.foldl (fun (a : DB × Nat) fc =>
        let res := importCell a.1 q.id fc.1 fc.2
        (res.1, a.2 + res.2)) (db1, 0)
      (step.1, { cnt with
        inserted := cnt.inserted + 1,
        warnings := cnt.warnings + step.2 })

/-- The tab8 import (lines 603-651): the `existing` snapshot is fetched
once before the loop and never refreshed, then the rows are processed in
order. -/
def importRows (db : DB) (rows : List ImportRow) : DB × ImportCounts :=
  rows.foldl (importOneRow db.people) (db, ⟨0, 0, 0⟩)

/-- Test for a raising cell. -/
def isErrCell (c : Cell) : Bool :=
  match c with
  | Cell.err _ => true
  | Cell.val _ => false

/-- The eleven base columns for which `display_editable_all` creates
input widgets (lines 348-381); no widget is created for any custom
field. -/
def baseEditFields : List String :=
  ["last_name", "first_name", "phone", "email", "is_member", "member_month",
   "member_year", "subscription_year", "is_athlete", "eom_number",
   "athlete_from_year"]

/-- The session-state key scheme of `display_editable_all`. -/
def editKey (pfx fname : String) (rid : Nat) : String :=
  pfx ++ "_" ++ fname ++ "_" ++ toString rid

/-- The custom-field update block of the save handler of
`display_editable_all` (lines 405-408): for every joined attribute of
the person, write back whatever
`st.session_state.get(f"all_{field_name}_{rid}")` yields. -/
def editable_all_save_attrs (db : DB) (rid : Nat)
    (session_get : String → Option String) : DB :=
  (get_member_attributes db rid).foldl
    (fun d attr =>
      save_member_attribute d rid attr.fieldId
        (session_get (editKey "all" attr.fieldName rid)))
    db

/-- A sample `people` row used by concrete witnesses. -/
def samplePerson : Person :=
  { id := 1, last_name := "Παπάς", first_name := "Νίκος",
    phone := "2101234567", email := "n@x.com", is_member := "ΝΑΙ",
    member_month := "Ιανουάριος", member_year := some 2020,
    subscription_year := some 2024, is_athlete := "ΟΧΙ",
    eom_number := "A12", athlete_from_year := none, is_student := "ΟΧΙ",
    student_period_month := "", student_period_year := none,
    student_university := "ΟΧΙ", is_interested := "ΝΑΙ",
    interested_from_month := "Μάιος", interested_from_year := some 2023 }

/-- A second sample `people` row used by concrete witnesses. -/
def samplePerson2 : Person :=
  { samplePerson with id := 2, first_name := "Άννα", is_member := "ΟΧΙ" }

/-- A sample tab6 filter state used by concrete witnesses: one active
single-choice clause, an empty multi-choice clause and a whitespace-only
name query. -/
def sampleFilter : FilterSpec :=
  { is_member := "ΝΑΙ", is_athlete := "Όλα", is_student := "Όλα",
    is_interested := "Όλα", member_month := [], member_year := [],
    subscription_year := [], athlete_from_year := [],
    student_period_month := [], student_period_year := [],
    student_university := [], eom_number_search := "",
    name_search := " ", email_search := "" }

/-- A sample three-row import dataset used by concrete witnesses: no
row duplicates the empty snapshot, and the second row's single mapped
custom-field cell raises. -/
def sampleImportRows : List ImportRow :=
  [{ first_name := "Nikos", last_name := "Papas", phone := "", email := "n@x.com",
     is_member := "", is_athlete := "", eom_number := "", cells := [] },
   { first_name := "Anna", last_name := "K", phone := "", email := "a@x.com",
     is_member := "", is_athlete := "", eom_number := "",
     cells := [(1, Cell.err "boom")] },
   { first_name := "Beth", last_name := "L", phone := "", email := "b@x.com",
     is_member := "", is_athlete := "", eom_number := "", cells := [] }]

/-- A sample database with one person, one custom field and one stored
attribute value, used by concrete witnesses. -/
def sampleAttrDB : DB :=
  { emptyDB with
    people := [samplePerson],
    peopleNextId := 2,
    custom_fields := [⟨7, "ΑΜΚΑ", "ΑΜΚΑ", "ΜΕΛΟΣ"⟩],
    fieldsNextId := 8,
    member_attributes := [⟨1, 1, 7, some "12345"⟩],
    maNextId := 2 }

/-- THEOREMS start here.  Helper lemmas come first, claim theorems and
witnesses follow. -/
theorem pairRows_eq (db : DB) (m fid : Nat) :
    pairRows db m fid = db.member_attributes.filter
      (fun r => decide (r.member_id = m) && decide (r.field_id = fid)) := rfl

theorem pairRows_length_le_one (db : DB) (m fid : Nat) (h : PairUnique db) :
    (pairRows db m fid).length ≤ 1 := by
  have hp : (pairRows db m fid).Pairwise
      (fun a b => ¬(a.member_id = b.member_id ∧ a.field_id = b.field_id)) :=
    List.Pairwise.filter _ h
  match hrows : pairRows db m fid with
  | [] => simp
  | [a] => simp
  | a :: b :: t =>
    rw [hrows] at hp
    have hab := (List.pairwise_cons.mp hp).1 b (by simp)
    have ha : a ∈ pairRows db m fid := by rw [hrows]; simp
    have hb : b ∈ pairRows db m fid := by rw [hrows]; simp
    rw [pairRows_eq, List.mem_filter] at ha hb
    have ha2 := ha.2
    have hb2 := hb.2
    simp only [Bool.and_eq_true, decide_eq_true_eq] at ha2 hb2
    exact absurd ⟨ha2.1.trans hb2.1.symm, ha2.2.trans hb2.2.symm⟩ hab

theorem save_attr_once (db : DB) (m fid : Nat) (v : Option String)
    (h : PairUnique db) :
    PairUnique (save_member_attribute db m fid v) ∧
      ∃ i, pairRows (save_member_attribute db m fid v) m fid = [⟨i, m, fid, v⟩] := by
  unfold save_member_attribute
  by_cases hemp : (db.member_attributes.filter
      (fun r => decide (r.member_id = m) && decide (r.field_id = fid))).isEmpty
  · simp only [hemp, if_true]
    constructor
    · unfold PairUnique
      simp only
      rw [List.pairwise_append]
      refine ⟨h, List.pairwise_singleton _ _, ?_⟩
      intro a ha b hb
      simp only [List.mem_singleton] at hb
      subst hb
      intro hcon
      have : a ∈ db.member_attributes.filter
          (fun r => decide (r.member_id = m) && decide (r.field_id = fid)) := by
        rw [List.mem_filter]
        refine ⟨ha, ?_⟩
        simp only [Bool.and_eq_true, decide_eq_true_eq]
        exact hcon
      rw [List.isEmpty_iff] at hemp
      rw [hemp] at this
      exact absurd this (List.not_mem_nil a)
    · refine ⟨db.maNextId, ?_⟩
      rw [pairRows_eq]
      simp only [List.filter_append]
      rw [List.isEmpty_iff] at hemp
      rw [hemp]
      simp
  · simp only [hemp, if_false]
    have hne : pairRows db m fid ≠ [] := by
      rw [pairRows_eq]
      intro hcon
      rw [← List.isEmpty_iff] at hcon
      exact hemp hcon
    have hle := pairRows_length_le_one db m fid h
    constructor
    · have hid : ∀ r : MARow,
          ((if r.member_id = m ∧ r.field_id = fid then
            { r with field_value := v } else r) : MARow).member_id = r.member_id ∧
          ((if r.member_id = m ∧ r.field_id = fid then
            { r with field_value := v } else r) : MARow).field_id = r.field_id := by
        intro r
        by_cases hc : r.member_id = m ∧ r.field_id = fid
        · simp [hc]
        · simp [hc]
      unfold PairUnique
      refine List.Pairwise.map _ ?_ h
      intro a b hab hcon
      exact hab ⟨((hid a).1).symm.trans (hcon.1.trans (hid b).1),
                 ((hid a).2).symm.trans (hcon.2.trans (hid b).2)⟩
    · match hrows : pairRows db m fid with
      | [] => exact absurd hrows hne
      | a :: b :: t =>
        rw [hrows] at hle
        simp at hle
      | [a] =>
        refine ⟨a.id, ?_⟩
        have hfm : (db.member_attributes.map (fun r =>
            if r.member_id = m ∧ r.field_id = fid then
              { r with field_value := v } else r)).filter
              (fun r => decide (r.member_id = m) && decide (r.field_id = fid)) =
            ((db.member_attributes.filter
              (fun r => decide (r.member_id = m) && decide (r.field_id = fid))).map
              (fun r => if r.member_id = m ∧ r.field_id = fid then
                { r with field_value := v } else r)) := by
          rw [List.filter_map]
          congr 1
          apply List.filter_congr
          intro r _
          by_cases hc : r.member_id = m ∧ r.field_id = fid
          · simp [hc]
          · simp [hc]
        show (db.member_attributes.map (fun r =>
            if r.member_id = m ∧ r.field_id = fid then
              { r with field_value := v } else r)).filter
            (fun r => decide (r.member_id = m) && decide (r.field_id = fid)) =
            [⟨a.id, m, fid, v⟩]
        rw [hfm, ← pairRows_eq, hrows]
        have ha : a ∈ pairRows db m fid := by rw [hrows]; simp
        rw [pairRows_eq, List.mem_filter] at ha
        have ha2 := ha.2
        simp only [Bool.and_eq_true, decide_eq_true_eq] at ha2
        rw [List.map_cons, List.map_nil, if_pos ha2]
        simp [MARow.mk.injEq, ha2.1, ha2.2]

theorem save_attr_fold (m fid : Nat) (ws : List (Option String)) (w : Option String) :
    ∀ db : DB, PairUnique db →
      PairUnique ((ws ++ [w]).foldl (fun d u => save_member_attribute d m fid u) db) ∧
      ∃ i, pairRows ((ws ++ [w]).foldl (fun d u => save_member_attribute d m fid u) db)
        m fid = [⟨i, m, fid, w⟩] := by
  induction ws with
  | nil =>
    intro db h
    simpa using save_attr_once db m fid w h
  | cons u us ih =>
    intro db h
    have h1 := save_attr_once db m fid u h
    simpa using ih (save_member_attribute db m fid u) h1.1

/-- C5: `save_member_attribute` is an upsert: after any positive number
of calls for the same `(member_id, field_id)` pair on a table where the
pair is unique, exactly one `member_attributes` row exists for the pair
and its stored value is the last value written; repeated identical calls
leave exactly one entry. -/
theorem save_member_attribute_upsert (db : DB) (m fid : Nat)
    (vs : List (Option String)) (v : Option String) (hinv : PairUnique db) :
    PairUnique ((vs ++ [v]).foldl (fun d u => save_member_attribute d m fid u) db) ∧
    (pairRows ((vs ++ [v]).foldl (fun d u => save_member_attribute d m fid u) db)
        m fid).length = 1 ∧
    ∀ r ∈ pairRows ((vs ++ [v]).foldl (fun d u => save_member_attribute d m fid u) db)
        m fid, r.field_value = v := by
  obtain ⟨hpu, i, hrows⟩ := save_attr_fold m fid vs v db hinv
  refine ⟨hpu, ?_, ?_⟩
  · rw [hrows]; rfl
  · intro r hr
    rw [hrows] at hr
    simp only [List.mem_singleton] at hr
    subst hr
    rfl

/-- C5 witness: two successive writes to the pair `(1, 2)` on the empty
database leave exactly one row for the pair. -/
theorem save_member_attribute_upsert_witness :
    (pairRows (([some "a"] ++ [some "b"]).foldl
        (fun d u => save_member_attribute d 1 2 u) emptyDB) 1 2).length = 1 :=
  (save_member_attribute_upsert emptyDB 1 2 [some "a"] (some "b")
    List.Pairwise.nil).2.1

/-- C6: `delete_custom_field` deletes every `member_attributes` row
referencing the field and the field definition itself; afterwards
`get_member_attributes` returns no row referencing the deleted field for
any person. -/
theorem delete_custom_field_cascade (db : DB) (fid : Nat) :
    (∀ r ∈ (delete_custom_field db fid).member_attributes, r.field_id ≠ fid) ∧
    (∀ f ∈ (delete_custom_field db fid).custom_fields, f.id ≠ fid) ∧
    (∀ p : Nat, ∀ a ∈ get_member_attributes (delete_custom_field db fid) p,
      a.fieldId ≠ fid) := by
  refine ⟨?_, ?_, ?_⟩
  · intro r hr
    have := (List.mem_filter.mp hr).2
    simpa using this
  · intro f hf
    have := (List.mem_filter.mp hf).2
    simpa using this
  · intro p a ha
    unfold get_member_attributes at ha
    rw [List.mem_flatMap] at ha
    obtain ⟨r, _, har⟩ := ha
    rw [List.mem_map] at har
    obtain ⟨cf, hcf, hacf⟩ := har
    have hcf2 := (List.mem_filter.mp hcf).1
    have : cf.id ≠ fid := by
      have := (List.mem_filter.mp hcf2).2
      simpa using this
    rw [← hacf]
    exact this

/-- C9: the settings table holds at most one row under the public
operations (any sequence of `set_club_name` calls starting from a state
with at most one row), `set_club_name` is a delete-then-insert full
replace, and `get_club_name` afterwards returns the new name. -/
theorem settings_single_row (db : DB) (names : List String) (name : String)
    (h : db.settings.length ≤ 1) :
    ((names.foldl set_club_name db).settings).length ≤ 1 ∧
    (set_club_name db name).settings = [name] ∧
    get_club_name (set_club_name db name) = some name := by
  refine ⟨?_, rfl, rfl⟩
  induction names generalizing db with
  | nil => exact h
  | cons n ns ih =>
    rw [List.foldl_cons]
    exact ih (set_club_name db n) (by simp [set_club_name])

/-- C9 witness: renaming twice from the fresh database leaves one row
and `get_club_name` returns the last name. -/
theorem settings_single_row_witness :
    ((["ΟΜΗ"].foldl set_club_name emptyDB).settings).length ≤ 1 ∧
    get_club_name (set_club_name emptyDB "ΟΜΗ") = some "ΟΜΗ" :=
  ⟨(settings_single_row emptyDB ["ΟΜΗ"] "ΟΜΗ" (by decide)).1,
   (settings_single_row emptyDB ["ΟΜΗ"] "ΟΜΗ" (by decide)).2.2⟩

theorem mem_fields_by_domain (db : DB) (domain : String) (f : CustomField) :
    f ∈ get_custom_fields_by_domain db domain ↔
      f ∈ db.custom_fields ∧
        (f.applicable_domains = "Όλα" ∨
          strContains f.applicable_domains domain = true) := by
  unfold get_custom_fields_by_domain get_custom_fields
  by_cases hemp : db.custom_fields.isEmpty
  · rw [List.isEmpty_iff] at hemp
    simp [hemp]
  · simp [hemp, List.mem_filter]

/-- C2: `get_custom_fields_by_domain` returns exactly the fields whose
`applicable_domains` equals the sentinel `"Όλα"` or contains the domain
as a substring (substring containment, not exact set membership). -/
theorem fields_by_domain_exact (db : DB) (domain : String) (f : CustomField) :
    f ∈ get_custom_fields_by_domain db domain ↔
      f ∈ db.custom_fields ∧
        (f.applicable_domains = "Όλα" ∨
          strContains f.applicable_domains domain = true) :=
  mem_fields_by_domain db domain f

theorem substr_split_at_sep {α : Type} {l x r : List α} {c : α}
    (hc : c ∉ l) (h : l <:+: x ++ c :: r) : l <:+: x ∨ l <:+: r := by
  obtain ⟨s, t, hst⟩ := h
  rw [List.append_assoc] at hst
  rcases List.append_eq_append_iff.mp hst with ⟨a, hx, hlt⟩ | ⟨a, hs, hcr⟩
  · rcases List.append_eq_append_iff.mp hlt with ⟨b, hab, ht⟩ | ⟨b, hl, hcr2⟩
    · left
      exact ⟨s, b, by rw [hx, hab, List.append_assoc]⟩
    · cases b with
      | nil =>
        left
        rw [List.append_nil] at hl
        exact ⟨s, [], by rw [List.append_nil, hx, hl]⟩
      | cons b0 bs =>
        exfalso
        rw [List.cons_append] at hcr2
        have hb0 : c = b0 := (List.cons.injEq _ _ _ _ ▸ hcr2).1
        apply hc
        rw [hl, hb0]
        simp
  · cases a with
    | nil =>
      rw [List.nil_append] at hcr
      cases hl : l with
      | nil => exact Or.inr ⟨[], r, by simp⟩
      | cons l0 ls =>
        exfalso
        rw [hl, List.cons_append] at hcr
        have : c = l0 := (List.cons.injEq _ _ _ _ ▸ hcr).1
        apply hc
        rw [hl, ← this]
        simp
    | cons a0 as =>
      rw [List.cons_append] at hcr
      have h1 := (List.cons.injEq _ _ _ _ ▸ hcr).2
      exact Or.inr ⟨as, t, by rw [← List.append_assoc] at h1; exact h1.symm⟩

theorem joinDomains_data_cons (x y : String) (xs : List String) :
    (joinDomains (x :: y :: xs)).data = x.data ++ ',' :: (joinDomains (y :: xs)).data := by
  show (x ++ "," ++ joinDomains (y :: xs)).data = _
  rw [String.data_append, String.data_append, List.append_assoc]
  rfl

theorem substr_join_mem (d : String) (hne : d.data ≠ []) (hc : ',' ∉ d.data) :
    ∀ ds : List String, d.data <:+: (joinDomains ds).data →
      ∃ t ∈ ds, d.data <:+: t.data := by
  intro ds
  induction ds with
  | nil =>
    intro h
    exfalso
    obtain ⟨s, t, hst⟩ := h
    have h0 : s ++ (d.data ++ t) = [] := by
      rw [← List.append_assoc]
      exact hst
    rcases List.append_eq_nil.mp h0 with ⟨-, h1⟩
    rcases List.append_eq_nil.mp h1 with ⟨h2, -⟩
    exact hne h2
  | cons x xs ih =>
    cases xs with
    | nil =>
      intro h
      exact ⟨x, by simp, h⟩
    | cons y ys =>
      intro h
      rw [joinDomains_data_cons] at h
      rcases substr_split_at_sep hc h with h1 | h2
      · exact ⟨x, by simp, h1⟩
      · obtain ⟨t, ht, hinf⟩ := ih h2
        exact ⟨t, by simp [ht], hinf⟩

theorem mem_substr_join (d : String) :
    ∀ ds : List String, d ∈ ds → d.data <:+: (joinDomains ds).data := by
  intro ds
  induction ds with
  | nil =>
    intro h
    exact absurd h (List.not_mem_nil d)
  | cons x xs ih =>
    intro h
    cases xs with
    | nil =>
      have hd : d = x := by simpa using h
      subst hd
      exact ⟨[], [], by show [] ++ d.data ++ [] = d.data; simp⟩
    | cons y ys =>
      rw [List.mem_cons] at h
      rcases h with h | h
      · subst h
        rw [joinDomains_data_cons]
        exact ⟨[], ',' :: (joinDomains (y :: ys)).data, by simp⟩
      · have hinf := ih h
        rw [joinDomains_data_cons]
        obtain ⟨s, t, hst⟩ := hinf
        refine ⟨x.data ++ ',' :: s, t, ?_⟩
        rw [← hst]
        simp

theorem tags_no_comma : ∀ t ∈ validDomainTags, ',' ∉ t.data := by decide

theorem tags_nonempty : ∀ t ∈ validDomainTags, t.data ≠ [] := by decide

theorem tags_min_length : ∀ t ∈ validDomainTags, 5 ≤ t.data.length := by decide

theorem tags_not_all : ∀ t ∈ validDomainTags, t ≠ "Όλα" := by decide

theorem tags_no_proper_substr :
    ∀ a ∈ validDomainTags, ∀ b ∈ validDomainTags, a.data <:+: b.data → a = b := by
  decide

theorem joinDomains_ne_all (ds : List String) (hne : ds ≠ [])
    (hds : ∀ t ∈ ds, t ∈ validDomainTags) : joinDomains ds ≠ "Όλα" := by
  match ds, hne with
  | [x], _ =>
    exact tags_not_all x (hds x (by simp))
  | x :: y :: ys, _ =>
    intro hcon
    have hdata : (joinDomains (x :: y :: ys)).data = "Όλα".data := by rw [hcon]
    rw [joinDomains_data_cons] at hdata
    have hlen := congrArg List.length hdata
    rw [List.length_append, List.length_cons] at hlen
    have h3 : ("Όλα".data).length = 3 := by decide
    rw [h3] at hlen
    have hx := tags_min_length x (hds x (by simp))
    omega

theorem substr_join_iff (d : String) (ds : List String)
    (hd : d ∈ validDomainTags) (hds : ∀ t ∈ ds, t ∈ validDomainTags) :
    strContains (joinDomains ds) d = true ↔ d ∈ ds := by
  constructor
  · intro h
    rw [strContains, decide_eq_true_eq] at h
    obtain ⟨t, ht, hinf⟩ :=
      substr_join_mem d (tags_nonempty d hd) (tags_no_comma d hd) ds h
    have hdt : d = t := tags_no_proper_substr d hd t (hds t ht) hinf
    rw [hdt]
    exact ht
  · intro h
    rw [strContains, decide_eq_true_eq]
    exact mem_substr_join d ds h

/-- C1: for a valid field definition — a fresh `field_name`, a fresh
surrogate id, and domain tags drawn from the five tags the UI offers —
`add_custom_field` stores an empty domain list as the `"Όλα"` sentinel
and a non-empty one as the comma-joined tag list, and a following
`get_custom_fields_by_domain d` (with `d` one of the five tags) returns
the new field if and only if `d` is a member of its domain set or the
domain set was empty (the ALL sentinel). -/
theorem add_field_then_query (db : DB) (nm disp d : String) (ds : List String)
    (db' : DB) (hok : add_custom_field db nm disp ds = Except.ok db')
    (hfresh : ∀ f ∈ db.custom_fields, f.id ≠ db.fieldsNextId)
    (hds : ∀ t ∈ ds, t ∈ validDomainTags) (hd : d ∈ validDomainTags) :
    db'.custom_fields = db.custom_fields ++
      [⟨db.fieldsNextId, nm, disp,
        if ds.isEmpty then "Όλα" else joinDomains ds⟩] ∧
    ((∃ f ∈ get_custom_fields_by_domain db' d, f.id = db.fieldsNextId) ↔
      (d ∈ ds ∨ ds = [])) := by
  unfold add_custom_field at hok
  by_cases hdup : db.custom_fields.any (fun f => decide (f.field_name = nm))
  · rw [if_pos hdup] at hok
    exact absurd hok (by simp)
  · rw [if_neg hdup] at hok
    have hdb' : db' = { db with
        custom_fields := db.custom_fields ++
          [⟨db.fieldsNextId, nm, disp,
            if ds.isEmpty then "Όλα" else joinDomains ds⟩],
        fieldsNextId := db.fieldsNextId + 1 } := by
      cases hok
      rfl
    subst hdb'
    refine ⟨rfl, ?_⟩
    constructor
    · rintro ⟨f, hf, hid⟩
      rw [mem_fields_by_domain] at hf
      have hmem := hf.1
      simp only [List.mem_append, List.mem_singleton] at hmem
      rcases hmem with hold | hnew
      · exact absurd hid (hfresh f hold)
      · subst hnew
        rcases hf.2 with hall | hsub
        · by_cases hds0 : ds.isEmpty
          · right
            exact List.isEmpty_iff.mp hds0
          · exfalso
            simp only [hds0, if_false] at hall
            exact joinDomains_ne_all ds
              (fun hcon => hds0 (by rw [hcon]; rfl)) hds hall
        · by_cases hds0 : ds.isEmpty
          · right
            exact List.isEmpty_iff.mp hds0
          · left
            simp only [hds0, if_false] at hsub
            exact (substr_join_iff d ds hd hds).mp hsub
    · intro hcase
      refine ⟨⟨db.fieldsNextId, nm, disp,
        if ds.isEmpty then "Όλα" else joinDomains ds⟩, ?_, rfl⟩
      rw [mem_fields_by_domain]
      refine ⟨by simp, ?_⟩
      rcases hcase with hmem | hnil
      · have hds0 : ds.isEmpty = false := by
          cases ds with
          | nil => exact absurd hmem (List.not_mem_nil d)
          | cons a as => rfl
        right
        simp only [hds0, if_false]
        exact (substr_join_iff d ds hd hds).mpr hmem
      · left
        subst hnil
        rfl

/-- C1 witness: defining the field `"ΑΜΚΑ"` for the single domain
`"ΜΕΛΟΣ"` on the fresh database stores the joined tag list. -/
theorem add_field_then_query_witness :
    ({ emptyDB with
        custom_fields := [⟨1, "ΑΜΚΑ", "ΑΜΚΑ", "ΜΕΛΟΣ"⟩],
        fieldsNextId := 2 } : DB).custom_fields =
      emptyDB.custom_fields ++ [⟨1, "ΑΜΚΑ", "ΑΜΚΑ", "ΜΕΛΟΣ"⟩] :=
  (add_field_then_query emptyDB "ΑΜΚΑ" "ΑΜΚΑ" "ΜΕΛΟΣ" ["ΜΕΛΟΣ"]
    { emptyDB with
        custom_fields := [⟨1, "ΑΜΚΑ", "ΑΜΚΑ", "ΜΕΛΟΣ"⟩],
        fieldsNextId := 2 }
    rfl (by decide) (by decide) (by decide)).1

theorem applyClauses_eq_filter :
    ∀ (cs : List (Person → Bool)) (df : List Person),
      applyClauses cs df = df.filter (fun r => cs.all (fun c => c r)) := by
  intro cs
  induction cs with
  | nil =>
    intro df
    show df = df.filter (fun _ => true)
    rw [eq_comm]
    exact List.filter_eq_self.mpr (fun a _ => rfl)
  | cons c rest ih =>
    intro df
    show applyClauses rest (df.filter c) = _
    rw [ih (df.filter c), List.filter_filter]
    apply List.filter_congr
    intro r _
    rw [List.all_cons, Bool.and_comm]

theorem all_of_perm {α : Type} {l₁ l₂ : List α} (h : l₁.Perm l₂) (p : α → Bool) :
    l₁.all p = l₂.all p := by
  induction h with
  | nil => rfl
  | cons x h ih => rw [List.all_cons, List.all_cons, ih]
  | swap x y l =>
    rw [List.all_cons, List.all_cons, List.all_cons, List.all_cons,
      Bool.and_left_comm]
  | trans h1 h2 ih1 ih2 => rw [ih1, ih2]

theorem stepIf_eq_filter (c : Bool × (Person → Bool)) (df : List Person) :
    stepIf c.1 c.2 df = df.filter (clausePred c) := by
  obtain ⟨a, p⟩ := c
  cases a
  · show df = df.filter _
    rw [eq_comm]
    exact List.filter_eq_self.mpr (fun r _ => rfl)
  · show df.filter p = df.filter _
    apply List.filter_congr
    intro r _
    rfl

theorem clausesFold_eq_applyClauses :
    ∀ (L : List (Bool × (Person → Bool))) (df : List Person),
      clausesFold L df = applyClauses (L.map clausePred) df := by
  intro L
  induction L with
  | nil => intro df; rfl
  | cons c rest ih =>
    intro df
    show clausesFold rest (stepIf c.1 c.2 df) = applyClauses (clausePred c :: rest.map clausePred) df
    rw [ih, stepIf_eq_filter]
    rfl

theorem applyFilters_eq_filter (f : FilterSpec) (df : List Person) :
    applyFilters f df =
      df.filter (fun r => (clauseList f).all (fun c => c r)) := by
  rw [applyFilters, clausesFold_eq_applyClauses, ← clauseList, applyClauses_eq_filter]

/-- C3: the tab6 filter application returns exactly the rows of the
snapshot on which every (guarded) clause holds — a conjunction over all
fourteen clauses; permuting the clause pipeline does not change the
result; and the result is a sublist of the snapshot, so the original
row order is preserved. -/
theorem applyFilters_conjunctive (f : FilterSpec) (df : List Person)
    (cs : List (Person → Bool)) (hperm : cs.Perm (clauseList f)) :
    (∀ r, r ∈ applyFilters f df ↔
      r ∈ df ∧ ∀ c ∈ clauseList f, c r = true) ∧
    applyClauses cs df = applyFilters f df ∧
    (applyFilters f df).Sublist df := by
  have hfe := applyFilters_eq_filter f df
  refine ⟨?_, ?_, ?_⟩
  · intro r
    rw [hfe, List.mem_filter, List.all_eq_true]
  · rw [hfe, applyClauses_eq_filter]
    apply List.filter_congr
    intro r _
    exact all_of_perm hperm (fun c => c r)
  · rw [hfe]
    exact List.filter_sublist df

/-- C3 witness: on a concrete two-row snapshot, applying the clause
pipeline of the sample filter (the identity permutation of its clause
list) agrees with the tab6 pipeline, and the result preserves row
order. -/
theorem applyFilters_conjunctive_witness :
    applyClauses (clauseList sampleFilter) [samplePerson, samplePerson2] =
      applyFilters sampleFilter [samplePerson, samplePerson2] ∧
    (applyFilters sampleFilter [samplePerson, samplePerson2]).Sublist
      [samplePerson, samplePerson2] :=
  ⟨(applyFilters_conjunctive sampleFilter [samplePerson, samplePerson2]
      (clauseList sampleFilter) (List.Perm.refl _)).2.1,
   (applyFilters_conjunctive sampleFilter [samplePerson, samplePerson2]
      (clauseList sampleFilter) (List.Perm.refl _)).2.2⟩

theorem strContains_empty_pat (h : String) : strContains h "" = true := by
  rw [strContains]
  apply decide_eq_true
  refine ⟨[], h.data, ?_⟩
  show [] ++ ([] : List Char) ++ h.data = h.data
  simp


theorem pyLower_empty : pyLower "" = "" := by decide

theorem namePred_trivial (q : String) (hq : pyStrip q = "") (r : Person) :
    namePred q r = true := by
  rw [namePred, hq, pyLower_empty, strContains_empty_pat]
  rfl

/-- C4: a multi-choice clause with an empty set and a free-text clause
whose string is empty or whitespace-only are both equivalent to omitting
the clause: dropping the `member_year` clause (index 5 of the pipeline)
or the name-search clause (index 11) from the clause list leaves the
result unchanged, and the result equals the one for the filter state
with those clauses reset to their unconstrained defaults. -/
theorem blank_clauses_noop (f : FilterSpec) (df : List Person)
    (hmy : f.member_year = []) (hns : pyStrip f.name_search = "") :
    applyClauses ((clauseList f).eraseIdx 5) df = applyFilters f df ∧
    applyClauses ((clauseList f).eraseIdx 11) df = applyFilters f df ∧
    applyFilters f df =
      applyFilters { f with member_year := [], name_search := "" } df := by
  refine ⟨?_, ?_, ?_⟩
  · rw [applyClauses_eq_filter, applyFilters_eq_filter]
    apply List.filter_congr
    intro r _
    simp [clauseList, specClauses, clausePred, hmy]
  · rw [applyClauses_eq_filter, applyFilters_eq_filter]
    apply List.filter_congr
    intro r _
    have hnp : namePred f.name_search r = true :=
      namePred_trivial f.name_search hns r
    simp [clauseList, specClauses, clausePred, hnp]
  · rw [applyFilters_eq_filter, applyFilters_eq_filter]
    apply List.filter_congr
    intro r _
    have hnp : namePred f.name_search r = true :=
      namePred_trivial f.name_search hns r
    simp [clauseList, specClauses, clausePred, hmy, hnp]

/-- C4 witness: the sample filter has an empty `member_year` clause and
a whitespace-only name query; the result on a concrete two-row snapshot
equals the result with both clauses omitted. -/
theorem blank_clauses_noop_witness :
    applyFilters sampleFilter [samplePerson, samplePerson2] =
      applyFilters { sampleFilter with member_year := [], name_search := "" }
        [samplePerson, samplePerson2] :=
  (blank_clauses_noop sampleFilter [samplePerson, samplePerson2] rfl
    (by decide)).2.2

theorem import_requery_ne_none (db : DB) (r : ImportRow) :
    ((db.people ++ [personFromImport db.peopleNextId r]).filter (fun q =>
        decide (q.email = r.email) && decide (q.first_name = r.first_name) &&
        decide (q.last_name = r.last_name))).head? ≠ none := by
  intro hcon
  rw [List.head?_eq_none_iff, List.filter_eq_nil_iff] at hcon
  apply hcon (personFromImport db.peopleNextId r) (by simp)
  simp [personFromImport]

theorem importCell_warn (d : DB) (mid fid : Nat) (c : Cell) :
    (importCell d mid fid c).2 = if isErrCell c then 1 else 0 := by
  cases c with
  | err m => rfl
  | val s =>
    simp only [importCell, isErrCell]
    split <;> rfl

theorem import_cells_warn_count (mid : Nat) (cells : List (Nat × Cell)) :
    ∀ (d : DB) (k : Nat),
      (cells.foldl (fun (a : DB × Nat) fc =>
        let res := importCell a.1 mid fc.1 fc.2
        (res.1, a.2 + res.2)) (d, k)).2 =
      k + (cells.filter (fun fc => isErrCell fc.2)).length := by
  induction cells with
  | nil =>
    intro d k
    simp
  | cons fc rest ih =>
    intro d k
    rw [List.foldl_cons]
    have hstep := ih (importCell d mid fc.1 fc.2).1 (k + (importCell d mid fc.1 fc.2).2)
    rw [hstep, importCell_warn, List.filter_cons]
    by_cases he : isErrCell fc.2
    · simp only [he, if_true]
      simp
      omega
    · simp only [he, if_false]
      simp [he]

theorem importOneRow_dup (snap : List Person) (acc : DB × ImportCounts)
    (r : ImportRow) (h : isDupRow snap r = true) :
    importOneRow snap acc r =
      (acc.1, { acc.2 with skipped := acc.2.skipped + 1 }) := by
  simp only [importOneRow, h, if_true]

theorem importOneRow_new (snap : List Person) (acc : DB × ImportCounts)
    (r : ImportRow) (h : isDupRow snap r = false) :
    (importOneRow snap acc r).2.skipped = acc.2.skipped ∧
    (importOneRow snap acc r).2.inserted = acc.2.inserted + 1 ∧
    (importOneRow snap acc r).2.warnings =
      acc.2.warnings + (r.cells.filter (fun fc => isErrCell fc.2)).length := by
  simp only [importOneRow, h, Bool.false_eq_true, if_false]
  split
  · next heq => exact absurd heq (import_requery_ne_none acc.1 r)
  · next q heq =>
    refine ⟨rfl, rfl, ?_⟩
    show acc.2.warnings + (r.cells.foldl _ (_, 0)).2 = _
    rw [import_cells_warn_count]
    omega

theorem import_fold_counts (snap : List Person) (rows : List ImportRow) :
    ∀ acc : DB × ImportCounts,
      ((rows.foldl (importOneRow snap) acc).2.skipped =
        acc.2.skipped + (rows.filter (fun r => isDupRow snap r)).length) ∧
      ((rows.foldl (importOneRow snap) acc).2.inserted =
        acc.2.inserted + (rows.filter (fun r => !isDupRow snap r)).length) ∧
      ((rows.foldl (importOneRow snap) acc).2.warnings =
        acc.2.warnings + ((rows.filter (fun r => !isDupRow snap r)).map
          (fun r => (r.cells.filter (fun fc => isErrCell fc.2)).length)).sum) := by
  induction rows with
  | nil =>
    intro acc
    simp
  | cons r rest ih =>
    intro acc
    rw [List.foldl_cons]
    obtain ⟨h1, h2, h3⟩ := ih (importOneRow snap acc r)
    by_cases hdup : isDupRow snap r = true
    · have hd := importOneRow_dup snap acc r hdup
      refine ⟨?_, ?_, ?_⟩
      · rw [h1, hd, List.filter_cons]
        simp only [hdup, if_true, List.length_cons]
        show acc.2.skipped + 1 + _ = _
        omega
      · rw [h2, hd, List.filter_cons]
        simp only [hdup, Bool.not_true, Bool.false_eq_true, if_false]
      · rw [h3, hd, List.filter_cons]
        simp only [hdup, Bool.not_true, Bool.false_eq_true, if_false]
    · have hnd : isDupRow snap r = false := by
        cases hh : isDupRow snap r
        · rfl
        · exact absurd hh hdup
      obtain ⟨hn1, hn2, hn3⟩ := importOneRow_new snap acc r hnd
      refine ⟨?_, ?_, ?_⟩
      · rw [h1, hn1, List.filter_cons]
        simp only [hnd, Bool.false_eq_true, if_false]
      · rw [h2, hn2, List.filter_cons]
        simp only [hnd, Bool.not_false, if_true, List.length_cons]
        omega
      · rw [h3, hn3, List.filter_cons]
        simp only [hnd, Bool.not_false, if_true, List.map_cons, List.sum_cons]
        omega

/-- C7: during the tab8 import a row is skipped and the skipped counter
incremented iff some person of the pre-import snapshot matches it
case-insensitively on all three of first name, last name and email; the
snapshot is never refreshed mid-import, so both counters depend only on
the pre-import people table — rows inserted earlier in the same import
are never checked against later rows. -/
theorem import_dup_snapshot (db : DB) (rows : List ImportRow) :
    (importRows db rows).2.skipped =
      (rows.filter (fun r => isDupRow db.people r)).length ∧
    (importRows db rows).2.inserted =
      (rows.filter (fun r => !isDupRow db.people r)).length := by
  obtain ⟨h1, h2, -⟩ := import_fold_counts db.people rows (db, ⟨0, 0, 0⟩)
  constructor
  · rw [importRows, h1]
    simp
  · rw [importRows, h2]
    simp

/-- C8: the import returns the inserted and skipped counts; a failure
while writing one custom-field cell is caught and counted as one
per-field warning without aborting the remaining cells or rows, so with
no duplicates every row is inserted and the warning count is the total
number of raising cells. -/
theorem import_cell_failure_isolated (db : DB) (rows : List ImportRow)
    (hnd : ∀ r ∈ rows, isDupRow db.people r = false) :
    (importRows db rows).2.inserted = rows.length ∧
    (importRows db rows).2.skipped = 0 ∧
    (importRows db rows).2.warnings =
      (rows.map (fun r =>
        (r.cells.filter (fun fc => isErrCell fc.2)).length)).sum := by
  obtain ⟨h1, h2, h3⟩ := import_fold_counts db.people rows (db, ⟨0, 0, 0⟩)
  have hself : rows.filter (fun r => !isDupRow db.people r) = rows :=
    List.filter_eq_self.mpr (fun r hr => by rw [hnd r hr]; rfl)
  have hnil : rows.filter (fun r => isDupRow db.people r) = [] :=
    List.filter_eq_nil_iff.mpr (fun r hr => by rw [hnd r hr]; simp)
  refine ⟨?_, ?_, ?_⟩
  · rw [importRows, h2, hself]
    simp
  · rw [importRows, h1, hnil]
    simp
  · rw [importRows, h3, hself]
    simp

/-- C8 witness: a three-row dataset against the empty database, where
one row's single mapped custom-field cell raises, results in 3 inserted
people and exactly 1 field-write warning. -/
theorem import_cell_failure_isolated_witness :
    (∀ r ∈ sampleImportRows, isDupRow emptyDB.people r = false) ∧
    (importRows emptyDB sampleImportRows).2.inserted = 3 ∧
    (importRows emptyDB sampleImportRows).2.warnings = 1 :=
  ⟨by decide,
   (import_cell_failure_isolated emptyDB sampleImportRows (by decide)).1,
   ((import_cell_failure_isolated emptyDB sampleImportRows (by decide)).2.2).trans
     (by decide)⟩

theorem mem_get_member_attributes (db : DB) (mid : Nat) (a : AttrRow)
    (ha : a ∈ get_member_attributes db mid) :
    ∃ cf ∈ db.custom_fields, a.fieldId = cf.id ∧ a.fieldName = cf.field_name := by
  unfold get_member_attributes at ha
  rw [List.mem_flatMap] at ha
  obtain ⟨r, hr, har⟩ := ha
  rw [List.mem_map] at har
  obtain ⟨cf, hcf, hacf⟩ := har
  exact ⟨cf, (List.mem_filter.mp hcf).1, by rw [← hacf], by rw [← hacf]⟩

theorem join_covers_row (db : DB) (mid : Nat) (r : MARow)
    (hr : r ∈ db.member_attributes) (hm : r.member_id = mid)
    (cf : CustomField) (hcf : cf ∈ db.custom_fields) (hid : cf.id = r.field_id) :
    ∃ a ∈ get_member_attributes db mid, a.fieldId = r.field_id := by
  refine ⟨⟨cf.id, cf.field_name, cf.display_name, r.field_value⟩, ?_, hid⟩
  unfold get_member_attributes
  rw [List.mem_flatMap]
  refine ⟨r, ?_, ?_⟩
  · rw [List.mem_filter]
    exact ⟨hr, by simp [hm]⟩
  · rw [List.mem_map]
    refine ⟨cf, ?_, rfl⟩
    rw [List.mem_filter]
    exact ⟨hcf, by simp [hid]⟩

theorem save_none_pair (db : DB) (mid fid : Nat) :
    ∀ r ∈ (save_member_attribute db mid fid none).member_attributes,
      r.member_id = mid → r.field_id = fid → r.field_value = none := by
  intro r hr hm hf
  unfold save_member_attribute at hr
  by_cases hemp : (db.member_attributes.filter
      (fun x => decide (x.member_id = mid) && decide (x.field_id = fid))).isEmpty
  · simp only [hemp, if_true] at hr
    rcases List.mem_append.mp hr with hold | hnew
    · exfalso
      rw [List.isEmpty_iff, List.filter_eq_nil_iff] at hemp
      apply hemp r hold
      simp [hm, hf]
    · simp only [List.mem_singleton] at hnew
      rw [hnew]
  · simp only [hemp, Bool.false_eq_true, if_false] at hr
    rw [List.mem_map] at hr
    obtain ⟨x, hx, hfx⟩ := hr
    by_cases hxp : x.member_id = mid ∧ x.field_id = fid
    · rw [if_pos hxp] at hfx
      rw [← hfx]
    · exfalso
      rw [if_neg hxp] at hfx
      rw [← hfx] at hm hf
      exact hxp ⟨hm, hf⟩

theorem save_none_keeps (db : DB) (mid fid f0 : Nat)
    (h : ∀ r ∈ db.member_attributes,
      r.member_id = mid → r.field_id = f0 → r.field_value = none) :
    ∀ r ∈ (save_member_attribute db mid fid none).member_attributes,
      r.member_id = mid → r.field_id = f0 → r.field_value = none := by
  intro r hr hm hf
  unfold save_member_attribute at hr
  by_cases hemp : (db.member_attributes.filter
      (fun x => decide (x.member_id = mid) && decide (x.field_id = fid))).isEmpty
  · simp only [hemp, if_true] at hr
    rcases List.mem_append.mp hr with hold | hnew
    · exact h r hold hm hf
    · simp only [List.mem_singleton] at hnew
      rw [hnew]
  · simp only [hemp, Bool.false_eq_true, if_false] at hr
    rw [List.mem_map] at hr
    obtain ⟨x, hx, hfx⟩ := hr
    by_cases hxp : x.member_id = mid ∧ x.field_id = fid
    · rw [if_pos hxp] at hfx
      rw [← hfx]
    · rw [if_neg hxp] at hfx
      rw [← hfx] at hm hf ⊢
      exact h x hx hm hf

theorem save_keeps_fid_set (db : DB) (mid fid : Nat) (v : Option String)
    (S : List Nat) (hfid : fid ∈ S)
    (h : ∀ r ∈ db.member_attributes, r.member_id = mid → r.field_id ∈ S) :
    ∀ r ∈ (save_member_attribute db mid fid v).member_attributes,
      r.member_id = mid → r.field_id ∈ S := by
  intro r hr hm
  unfold save_member_attribute at hr
  by_cases hemp : (db.member_attributes.filter
      (fun x => decide (x.member_id = mid) && decide (x.field_id = fid))).isEmpty
  · simp only [hemp, if_true] at hr
    rcases List.mem_append.mp hr with hold | hnew
    · exact h r hold hm
    · simp only [List.mem_singleton] at hnew
      rw [hnew]
      exact hfid
  · simp only [hemp, Bool.false_eq_true, if_false] at hr
    rw [List.mem_map] at hr
    obtain ⟨x, hx, hfx⟩ := hr
    by_cases hxp : x.member_id = mid ∧ x.field_id = fid
    · rw [if_pos hxp] at hfx
      rw [← hfx] at hm ⊢
      exact h x hx hm
    · rw [if_neg hxp] at hfx
      rw [← hfx] at hm ⊢
      exact h x hx hm

theorem fold_save_none_keeps (mid f0 : Nat) (L : List AttrRow) :
    ∀ (db : DB) (vfun : AttrRow → Option String),
      (∀ a ∈ L, vfun a = none) →
      (∀ r ∈ db.member_attributes,
        r.member_id = mid → r.field_id = f0 → r.field_value = none) →
      ∀ r ∈ (L.foldl (fun d attr =>
          save_member_attribute d mid attr.fieldId (vfun attr)) db).member_attributes,
        r.member_id = mid → r.field_id = f0 → r.field_value = none := by
  induction L with
  | nil =>
    intro db vfun _ h
    exact h
  | cons b L' ih =>
    intro db vfun hv h
    rw [List.foldl_cons]
    apply ih _ vfun (fun a ha => hv a (by simp [ha]))
    rw [hv b (by simp)]
    exact save_none_keeps db mid b.fieldId f0 h

theorem fold_save_none_nulls (mid : Nat) (L : List AttrRow) :
    ∀ (db : DB) (vfun : AttrRow → Option String),
      (∀ a ∈ L, vfun a = none) →
      ∀ a0 ∈ L,
        ∀ r ∈ (L.foldl (fun d attr =>
            save_member_attribute d mid attr.fieldId (vfun attr)) db).member_attributes,
          r.member_id = mid → r.field_id = a0.fieldId → r.field_value = none := by
  induction L with
  | nil =>
    intro db vfun _ a0 ha0
    exact absurd ha0 (List.not_mem_nil a0)
  | cons b L' ih =>
    intro db vfun hv a0 ha0
    rw [List.foldl_cons]
    rcases List.mem_cons.mp ha0 with hb | hL'
    · subst hb
      apply fold_save_none_keeps mid a0.fieldId L' _ vfun
        (fun a ha => hv a (by simp [ha]))
      rw [hv a0 (by simp)]
      exact save_none_pair db mid a0.fieldId
    · exact ih _ vfun (fun a ha => hv a (by simp [ha])) a0 hL'

theorem fold_save_keeps_fid_set (mid : Nat) (S : List Nat) (L : List AttrRow) :
    ∀ (db : DB) (vfun : AttrRow → Option String),
      (∀ a ∈ L, a.fieldId ∈ S) →
      (∀ r ∈ db.member_attributes, r.member_id = mid → r.field_id ∈ S) →
      ∀ r ∈ (L.foldl (fun d attr =>
          save_member_attribute d mid attr.fieldId (vfun attr)) db).member_attributes,
        r.member_id = mid → r.field_id ∈ S := by
  induction L with
  | nil =>
    intro db vfun _ h
    exact h
  | cons b L' ih =>
    intro db vfun hS h
    rw [List.foldl_cons]
    apply ih _ vfun (fun a ha => hS a (by simp [ha]))
    exact save_keeps_fid_set db mid b.fieldId (vfun b) S (hS b (by simp)) h

/-- C10: for every person, completing the save handler of the editable
all-people view rewrites each of the person's existing
`member_attributes` rows with a NULL value: the view creates input
widgets only for the eleven base columns, so each per-field session
state key it reads back is absent and `st.session_state.get` yields
`None`, which `save_member_attribute` then stores.  Hypotheses: reading
any key outside the created base-field keys yields `None` (Streamlit
semantics), custom-field names do not collide with base column names,
and every attribute row of the person references an existing custom
field (the foreign key of the schema). -/
theorem editable_all_save_nulls_attributes (db : DB) (rid : Nat)
    (session_get : String → Option String)
    (hget : ∀ fname : String, fname ∉ baseEditFields →
      session_get (editKey "all" fname rid) = none)
    (hnames : ∀ cf ∈ db.custom_fields, cf.field_name ∉ baseEditFields)
    (href : ∀ r ∈ db.member_attributes, r.member_id = rid →
      ∃ cf ∈ db.custom_fields, cf.id = r.field_id) :
    ∀ r ∈ (editable_all_save_attrs db rid session_get).member_attributes,
      r.member_id = rid → r.field_value = none := by
  intro r hr hm
  unfold editable_all_save_attrs at hr
  have hv : ∀ a ∈ get_member_attributes db rid,
      session_get (editKey "all" a.fieldName rid) = none := by
    intro a ha
    obtain ⟨cf, hcf, -, hfn⟩ := mem_get_member_attributes db rid a ha
    rw [hfn]
    exact hget cf.field_name (hnames cf hcf)
  have hS0 : ∀ x ∈ db.member_attributes, x.member_id = rid →
      x.field_id ∈ (get_member_attributes db rid).map (fun a => a.fieldId) := by
    intro x hx hxm
    obtain ⟨cf, hcf, hid⟩ := href x hx hxm
    obtain ⟨a, haL, hafid⟩ := join_covers_row db rid x hx hxm cf hcf hid
    rw [List.mem_map]
    exact ⟨a, haL, hafid⟩
  have hfid := fold_save_keeps_fid_set rid
    ((get_member_attributes db rid).map (fun a => a.fieldId))
    (get_member_attributes db rid) db
    (fun attr => session_get (editKey "all" attr.fieldName rid))
    (fun a ha => List.mem_map_of_mem _ ha) hS0 r hr hm
  rw [List.mem_map] at hfid
  obtain ⟨a0, ha0, ha0fid⟩ := hfid
  exact fold_save_none_nulls rid (get_member_attributes db rid) db
    (fun attr => session_get (editKey "all" attr.fieldName rid))
    hv a0 ha0 r hr hm ha0fid.symm

/-- C10 witness: on the sample database (one person with one stored
attribute value "12345") the save handler with an empty session state
leaves every attribute row of the person NULL. -/
theorem editable_all_save_nulls_attributes_witness :
    sampleAttrDB.member_attributes = [⟨1, 1, 7, some "12345"⟩] ∧
    ∀ r ∈ (editable_all_save_attrs sampleAttrDB 1
        (fun _ => none)).member_attributes,
      r.member_id = 1 → r.field_value = none :=
  ⟨rfl, editable_all_save_nulls_attributes sampleAttrDB 1 (fun _ => none)
    (fun _ _ => rfl) (by decide) (by decide)⟩
